import Mathlib

/-!
Verification of the Data Trust Analyzer (src/main.py).

The core of the program — identifier detection (is_index_like), numeric
coercion (try_convert_to_number), per-column distribution analysis, the
trust classification of each column, and the dataset-level verdict
(analyze_dataset) — is embedded below as executable Lean functions over ℚ.

Modelling conventions:
  * a pandas cell is an Option: none is NaN / missing;
  * a column is either natively numeric (List (Option ℚ)) or textual
    (List (Option String)), mirroring pd.api.types.is_numeric_dtype;
  * float arithmetic is modelled by exact rational arithmetic.  The two
    comparisons that involve a square root in the source —
    std > iqr (std = sqrt of the sample variance) and
    abs(skew) > 0.5 (skew = n*sqrt(n-1)/(n-2) * m3 / m2^1.5) —
    are encoded by the equivalent squared comparisons
    iqr^2 < var (under the guard 0 < iqr) and
    (n-2)^2*m2^3 < 4*n^2*(n-1)*m3^2 (under the guard 0 < m2),
    which are exact rational inequalities; theorem c7 below proves the
    equivalence with the sqrt formulation over ℝ;
  * pandas returns NaN for a sample statistic on too small a sample
    (std with n < 2, skew with n < 3, the mean of an empty series), and
    every comparison with NaN is False; the embedding reaches the same
    branch outcomes: skew is guarded by 3 ≤ n and 0 < m2 (pandas defines
    skew = 0 when m2 == 0), the variance of a singleton is 0/0 = 0 in ℚ
    so the instability test is False exactly as `NaN > iqr` is, and an
    empty column gives success_rate 0/0 = 0 so `NaN >= 0.9` and `0 ≥ 0.9`
    pick the same (Categorical) branch;
  * python's round(x, 2) is modelled as round-half-up on ℚ; no claim
    exercises a half-way case.
-/

namespace DataTrust

/-- A column as handed to the analyzer: either natively numeric or textual
(object dtype).  A none entry is a missing value (NaN). -/
inductive ColumnData where
  | numeric (cells : List (Option ℚ))
  | textual (cells : List (Option String))

/-- The non-missing entries of a numeric cell list, in order
(pandas Series.dropna). -/
def numericNonMissing (cells : List (Option ℚ)) : List ℚ := cells.filterMap id

/-- column.isna().sum() — the number of missing entries. -/
def countMissing : ColumnData → ℕ
  | .numeric cells => cells.countP Option.isNone
  | .textual cells => cells.countP Option.isNone

/-- Ascending sort (pandas sort_values). -/
def sortedVals (l : List ℚ) : List ℚ := List.insertionSort (fun a b => a ≤ b) l

/-- Consecutive differences of a list (pandas Series.diff().dropna()):
element i+1 minus element i. -/
def diffsOf (l : List ℚ) : List ℚ := List.zipWith (fun a b => b - a) l l.tail

/-- src/main.py is_index_like: a column is identifier-like when it is
numeric, its distinct non-missing count (nunique) is not below
0.9 * total_rows, and the sorted non-missing values have exactly one
distinct consecutive difference. -/
def is_index_like (column : ColumnData) (total_rows : ℕ) : Bool :=
  match column with
  | .textual _ => false
  | .numeric cells =>
    let unique_values := (numericNonMissing cells).dedup.length
    if (unique_values : ℚ) < (total_rows : ℚ) * 0.9 then false
    else
      let sorted_values := sortedVals (numericNonMissing cells)
      let differences := diffsOf sorted_values
      differences.dedup.length == 1

/-- str(NaN) = "nan": pandas astype(str) renders a missing entry as the
string "nan" (which pd.to_numeric then maps back to NaN). -/
def cellStr : Option String → String
  | none => "nan"
  | some s => s

/-- Remove every occurrence of one character
(str.replace(c, "", regex=False) with an empty replacement). -/
def removeChar (c : Char) : List Char → List Char
  | [] => []
  | x :: xs => if x == c then removeChar c xs else x :: removeChar c xs

/-- The three replace calls of try_convert_to_number: strip every
occurrence of the characters dollar, comma and percent. -/
def stripSymbols (l : List Char) : List Char :=
  removeChar '%' (removeChar ',' (removeChar '$' l))

/-- Value of a digit string read left to right (0 for the empty list). -/
def digitsToNat (l : List Char) : ℕ :=
  l.foldl (fun acc c => 10 * acc + (c.toNat - 48)) 0

/-- Every character is a decimal digit. -/
def allDigits (l : List Char) : Bool := l.all Char.isDigit

/-- Decimal mantissa of pd.to_numeric: digits with an optional single
decimal point, at least one digit in total. -/
def parseMantissa (l : List Char) : Option ℚ :=
  match l.span (fun c => c != '.') with
  | (intPart, []) =>
      if intPart ≠ [] ∧ allDigits intPart then some (digitsToNat intPart : ℚ)
      else none
  | (intPart, _ :: fracPart) =>
      if (intPart ≠ [] ∨ fracPart ≠ []) ∧ allDigits intPart ∧ allDigits fracPart then
        some ((digitsToNat intPart : ℚ) + (digitsToNat fracPart : ℚ) / 10 ^ fracPart.length)
      else none

/-- Signed decimal exponent (digits with an optional sign). -/
def parseExpInt (l : List Char) : Option ℤ :=
  match l with
  | '+' :: rest =>
      if rest ≠ [] ∧ allDigits rest then some (digitsToNat rest : ℤ) else none
  | '-' :: rest =>
      if rest ≠ [] ∧ allDigits rest then some (-(digitsToNat rest : ℤ)) else none
  | rest =>
      if rest ≠ [] ∧ allDigits rest then some (digitsToNat rest : ℤ) else none

/-- Unsigned numeric literal: mantissa with an optional e/E exponent. -/
def parseUnsigned (l : List Char) : Option ℚ :=
  match l.span (fun c => c != 'e' && c != 'E') with
  | (mant, []) => parseMantissa mant
  | (mant, _ :: expPart) => do
      let m ← parseMantissa mant
      let e ← parseExpInt expPart
      some (m * (10 : ℚ) ^ e)

/-- Optional leading sign. -/
def parseNumericChars (l : List Char) : Option ℚ :=
  match l with
  | '+' :: rest => parseUnsigned rest
  | '-' :: rest => (parseUnsigned rest).map (fun q => -q)
  | rest => parseUnsigned rest

/-- Surrounding blanks are ignored by pd.to_numeric. -/
def trimSpaces (l : List Char) : List Char :=
  ((l.dropWhile (fun c => c == ' ')).reverse.dropWhile (fun c => c == ' ')).reverse

/-- Model of pd.to_numeric(value, errors="coerce") on one rendered cell:
parses an optionally signed decimal literal (optional fraction and
exponent) to an exact rational, and returns none — i.e. NaN — on any
other input ("nan" included).  Non-rational successes of pandas
(inf, values beyond float range) are outside this model. -/
def parseNumeric (s : String) : Option ℚ :=
  parseNumericChars (trimSpaces s.data)

/-- The per-cell transformation of try_convert_to_number: render the cell
as a string, strip dollar/comma/percent, and parse. -/
def convertCell (cell : Option String) : Option ℚ :=
  parseNumeric (String.mk (stripSymbols (cellStr cell).data))

/-- src/main.py try_convert_to_number: the coerced cell list plus
success_rate = converted.notna().mean() (parsed count over the full
column length; the mean of an empty column is modelled as 0, landing in
the same branch as pandas' NaN). -/
def try_convert_to_number (cells : List (Option String)) :
    List (Option ℚ) × ℚ :=
  let converted := cells.map convertCell
  (converted, (converted.countP Option.isSome : ℚ) / (cells.length : ℚ))

/-- Series.mean() on the non-missing values. -/
def meanOf (l : List ℚ) : ℚ := l.sum / (l.length : ℚ)

/-- Sum of squared deviations from the mean. -/
def m2Of (l : List ℚ) : ℚ := (l.map (fun x => (x - meanOf l) ^ 2)).sum

/-- Sum of cubed deviations from the mean. -/
def m3Of (l : List ℚ) : ℚ := (l.map (fun x => (x - meanOf l) ^ 3)).sum

/-- Sample variance (ddof = 1), the square of Series.std(); for a
singleton 0/0 = 0 here where pandas has NaN — the instability comparison
below is False either way. -/
def sampleVar (l : List ℚ) : ℚ := m2Of l / ((l.length : ℚ) - 1)

/-- Series.quantile(q): linear interpolation at position q*(n-1) of the
ascending sort. -/
def quantileOf (q : ℚ) (l : List ℚ) : ℚ :=
  let s := sortedVals l
  let pos : ℚ := q * ((l.length : ℚ) - 1)
  let i : ℕ := (Int.floor pos).toNat
  let x0 := s.getD i 0
  let x1 := s.getD (i + 1) x0
  x0 + (x1 - x0) * (pos - (Int.floor pos : ℚ))

/-- Series.median(). -/
def medianOf (l : List ℚ) : ℚ := quantileOf (1/2) l

/-- Interquartile range q3 - q1. -/
def iqrOf (l : List ℚ) : ℚ := quantileOf (3/4) l - quantileOf (1/4) l

/-- abs(skew) > 0.5 with skew = n*sqrt(n-1)/(n-2) * m3/m2^1.5 (pandas
Series.skew), encoded squared: NaN for n < 3 and 0 for m2 = 0 both give
False, hence the guards. -/
def distortedOf (l : List ℚ) : Bool :=
  decide (3 ≤ l.length ∧ 0 < m2Of l ∧
    ((l.length : ℚ) - 2) ^ 2 * (m2Of l) ^ 3 <
      4 * (l.length : ℚ) ^ 2 * ((l.length : ℚ) - 1) * (m3Of l) ^ 2)

/-- iqr > 0 and std > iqr, encoded squared (std = sqrt sampleVar ≥ 0). -/
def unstableOf (l : List ℚ) : Bool :=
  decide (0 < iqrOf l ∧ (iqrOf l) ^ 2 < sampleVar l)

/-- Number of values strictly outside the IQR fence
[q1 - 1.5*iqr, q3 + 1.5*iqr]. -/
def outlierCountOf (l : List ℚ) : ℕ :=
  let q1 := quantileOf (1/4) l
  let q3 := quantileOf (3/4) l
  let iqr := q3 - q1
  l.countP (fun x =>
    decide (x < q1 - 1.5 * iqr) || decide (q3 + 1.5 * iqr < x))

/-- round(x, 2) (half-up model). -/
def round2 (q : ℚ) : ℚ := (round (q * 100) : ℚ) / 100

/-- One row of the output report. -/
structure ColumnRecord where
  column : String
  data_type : String
  missing_count : ℕ
  missing_percent : ℚ
  distorted : Bool
  unstable : Bool
  outlier_count : ℕ
  trust : String
  remarks : String

/-- The trust chain of the Categorical branch of analyze_dataset. -/
def categoricalTrust (missing_percent : ℚ) : String :=
  if 30 ≤ missing_percent then "High Risk"
  else if 5 ≤ missing_percent then "Needs Cleaning"
  else "Reliable"

/-- The trust classification chain of analyze_dataset for a statistically
scored column (source lines 199-217), in source order. -/
def trustClassify (missing_percent : ℚ) (outlier_count total_rows : ℕ)
    (distorted unstable : Bool) : String × String :=
  if 30 ≤ missing_percent then ("High Risk", "Too many missing values")
  else if (total_rows : ℚ) * 0.1 < (outlier_count : ℚ) then
    ("High Risk", "Excessive outliers")
  else if distorted || unstable || decide (5 ≤ missing_percent) then
    ("Needs Cleaning", "Distribution issues detected")
  else ("Reliable", "Column is reliable")

/-- Type resolution of analyze_dataset (source lines 123-151): a native
numeric column keeps its non-missing values; a textual one goes through
try_convert_to_number and is kept only when success_rate >= 0.9;
otherwise (none) the column is Categorical. -/
def numericValuesOf : ColumnData → Option (String × List ℚ)
  | .numeric cells => some ("Numeric", numericNonMissing cells)
  | .textual cells =>
    let res := try_convert_to_number cells
    if (0.9 : ℚ) ≤ res.2 then some ("Numeric (converted)", res.1.filterMap id)
    else none

/-- missing_percent as analyze_dataset computes it (before rounding):
(missing_count / total_rows) * 100. -/
def rawMissingPercent (column : ColumnData) (total_rows : ℕ) : ℚ :=
  (countMissing column : ℚ) / (total_rows : ℚ) * 100

/-- The loop body of analyze_dataset: the one record emitted for a column. -/
def classifyColumn (column_name : String) (column : ColumnData)
    (total_rows : ℕ) : ColumnRecord :=
  let missing_count := countMissing column
  let missing_percent : ℚ := rawMissingPercent column total_rows
  let base : ColumnRecord :=
    { column := column_name
      data_type := ""
      missing_count := missing_count
      missing_percent := round2 missing_percent
      distorted := false
      unstable := false
      outlier_count := 0
      trust := ""
      remarks := "" }
  if is_index_like column total_rows then
    { base with
      data_type := "Identifier"
      trust := "Ignored"
      remarks := "Identifier column" }
  else
    match numericValuesOf column with
    | none =>
        { base with
          data_type := "Categorical"
          trust := categoricalTrust missing_percent
          remarks := "Categorical column" }
    | some (dtype, numeric_values) =>
        if numeric_values.length = 0 then
          { base with
            data_type := dtype
            trust := "High Risk"
            remarks := "All values missing" }
        else
          let d := distortedOf numeric_values
          let u := unstableOf numeric_values
          let oc := outlierCountOf numeric_values
          let tr := trustClassify missing_percent oc total_rows d u
          { base with
            data_type := dtype
            distorted := d
            unstable := u
            outlier_count := oc
            trust := tr.1
            remarks := tr.2 }

/-- Dataset-level verdict of analyze_dataset (source lines 226-235). -/
def datasetVerdict (records : List ColumnRecord) : String :=
  let high_risk_count := records.countP (fun r => r.trust == "High Risk")
  if (records.length : ℚ) * 0.4 < (high_risk_count : ℚ) then
    "Dataset is NOT reliable"
  else if 0 < high_risk_count then "Dataset needs cleaning"
  else "Dataset is safe for analysis"

/-- analyze_dataset on an already-parsed table (CSV reading is the I/O
collaborator's): one record per column, in column order, plus the verdict. -/
def analyzeDataset (total_rows : ℕ) (table : List (String × ColumnData)) :
    List ColumnRecord × String :=
  let results := table.map (fun nc => classifyColumn nc.1 nc.2 total_rows)
  (results, datasetVerdict results)

/-- Risk order of the three data-quality trust labels:
Reliable < Needs Cleaning < High Risk. -/
def riskRank : String → ℕ
  | "High Risk" => 2
  | "Needs Cleaning" => 1
  | _ => 0

/-- Modelled from the spec (section 4.5): the aggregator contract in the
spec's own words — count the records whose trust is High Risk and compare
with strict inequalities against 0.4 * len(records) and 0. -/
def aggregate_spec (records : List ColumnRecord) : String :=
  let high_risk_count := records.countP (fun r => r.trust == "High Risk")
  if (high_risk_count : ℚ) > 0.4 * (records.length : ℚ) then
    "Dataset is NOT reliable"
  else if high_risk_count > 0 then "Dataset needs cleaning"
  else "Dataset is safe for analysis"

/-! ## Helper lemmas -/

theorem classifyColumn_column_eq (n : String) (c : ColumnData) (t : ℕ) :
    (classifyColumn n c t).column = n := by
  simp only [classifyColumn]
  split
  · rfl
  · split
    · rfl
    · split <;> rfl

theorem trustClassify_fst_cases (mp : ℚ) (oc t : ℕ) (d u : Bool) :
    (trustClassify mp oc t d u).1 = "High Risk" ∨
    (trustClassify mp oc t d u).1 = "Needs Cleaning" ∨
    (trustClassify mp oc t d u).1 = "Reliable" := by
  unfold trustClassify
  split_ifs <;> simp

theorem datasetVerdict_cases (records : List ColumnRecord) :
    datasetVerdict records = "Dataset is safe for analysis" ∨
    datasetVerdict records = "Dataset needs cleaning" ∨
    datasetVerdict records = "Dataset is NOT reliable" := by
  simp only [datasetVerdict]
  split_ifs <;> simp

/-- Unfolding of classifyColumn on a statistically scored column: not an
identifier, numeric data resolved, at least one non-missing numeric value. -/
theorem classifyColumn_scored (n : String) (c : ColumnData) (t : ℕ)
    (dtype : String) (vals : List ℚ)
    (hid : is_index_like c t = false)
    (hv : numericValuesOf c = some (dtype, vals))
    (hne : vals ≠ []) :
    classifyColumn n c t =
      { column := n
        data_type := dtype
        missing_count := countMissing c
        missing_percent := round2 (rawMissingPercent c t)
        distorted := distortedOf vals
        unstable := unstableOf vals
        outlier_count := outlierCountOf vals
        trust := (trustClassify (rawMissingPercent c t) (outlierCountOf vals) t
          (distortedOf vals) (unstableOf vals)).1
        remarks := (trustClassify (rawMissingPercent c t) (outlierCountOf vals) t
          (distortedOf vals) (unstableOf vals)).2 } := by
  simp only [classifyColumn, hid, Bool.false_eq_true, if_false, hv,
    List.length_eq_zero, hne, ite_false]

/-! ## Claim theorems -/

/-- C1: for every input table with N columns the analysis produces exactly
N column records, one per input column and in input column order, and
exactly one verdict string (one of the three fixed literals); being a total
function of the table, no column content aborts the run. -/
theorem c1_totality (total_rows : ℕ) (table : List (String × ColumnData)) :
    (analyzeDataset total_rows table).1.length = table.length ∧
    (analyzeDataset total_rows table).1.map ColumnRecord.column =
      table.map Prod.fst ∧
    ((analyzeDataset total_rows table).2 = "Dataset is safe for analysis" ∨
     (analyzeDataset total_rows table).2 = "Dataset needs cleaning" ∨
     (analyzeDataset total_rows table).2 = "Dataset is NOT reliable") := by
  refine ⟨by simp [analyzeDataset], ?_, datasetVerdict_cases _⟩
  simp only [analyzeDataset, List.map_map]
  exact List.map_congr_left fun a _ => classifyColumn_column_eq a.1 a.2 total_rows

/-- C2: the dataset verdict is computed from the per-record trust values
with strict comparisons exactly as the spec states (datasetVerdict agrees
with the spec-worded aggregate_spec), and at the boundary: any 10 records
with exactly 4 High Risk give "Dataset needs cleaning", with 5 High Risk
"Dataset is NOT reliable". -/
theorem c2_verdict (records : List ColumnRecord) :
    datasetVerdict records = aggregate_spec records ∧
    (records.length = 10 →
      records.countP (fun r => r.trust == "High Risk") = 4 →
      datasetVerdict records = "Dataset needs cleaning") ∧
    (records.length = 10 →
      records.countP (fun r => r.trust == "High Risk") = 5 →
      datasetVerdict records = "Dataset is NOT reliable") := by
  refine ⟨?_, ?_, ?_⟩
  · simp only [datasetVerdict, aggregate_spec, gt_iff_lt]
    rw [mul_comm]
  all_goals
    intro hlen hcnt
    simp only [datasetVerdict, hlen, hcnt]
    norm_num

/-- One of the ten records used to witness the C2 boundary. -/
def exC2hr : ColumnRecord :=
  { column := "h"
    data_type := "Numeric"
    missing_count := 0
    missing_percent := 0
    distorted := false
    unstable := false
    outlier_count := 0
    trust := "High Risk"
    remarks := "Excessive outliers" }

/-- One of the ten records used to witness the C2 boundary. -/
def exC2ok : ColumnRecord :=
  { exC2hr with
    trust := "Reliable"
    remarks := "Column is reliable" }

/-- Ten records, exactly four of them High Risk. -/
def exC2 : List ColumnRecord :=
  List.replicate 4 exC2hr ++ List.replicate 6 exC2ok

theorem c2_verdict_witness :
    datasetVerdict exC2 = "Dataset needs cleaning" :=
  (c2_verdict exC2).2.1 (by simp [exC2])
    (by simp [exC2, exC2hr, exC2ok, List.countP_append])

/-- C3: for a statistically scored column the trust label and remark are
decided by the first matching rule in strict priority order:
missing_percent >= 30 gives High Risk with remark "Too many missing values";
otherwise outlier_count > total_rows * 0.1 gives High Risk; otherwise
distorted or unstable or missing_percent >= 5 gives Needs Cleaning with
remark "Distribution issues detected"; otherwise Reliable with remark
"Column is reliable". -/
theorem c3_priority (n : String) (c : ColumnData) (t : ℕ) (dtype : String)
    (vals : List ℚ) (hid : is_index_like c t = false)
    (hv : numericValuesOf c = some (dtype, vals)) (hne : vals ≠ []) :
    ((30 : ℚ) ≤ rawMissingPercent c t →
      (classifyColumn n c t).trust = "High Risk" ∧
      (classifyColumn n c t).remarks = "Too many missing values") ∧
    (¬ (30 : ℚ) ≤ rawMissingPercent c t →
      (t : ℚ) * 0.1 < (outlierCountOf vals : ℚ) →
      (classifyColumn n c t).trust = "High Risk") ∧
    (¬ (30 : ℚ) ≤ rawMissingPercent c t →
      ¬ (t : ℚ) * 0.1 < (outlierCountOf vals : ℚ) →
      (distortedOf vals = true ∨ unstableOf vals = true ∨
        (5 : ℚ) ≤ rawMissingPercent c t) →
      (classifyColumn n c t).trust = "Needs Cleaning" ∧
      (classifyColumn n c t).remarks = "Distribution issues detected") ∧
    (¬ (30 : ℚ) ≤ rawMissingPercent c t →
      ¬ (t : ℚ) * 0.1 < (outlierCountOf vals : ℚ) →
      ¬ (distortedOf vals = true ∨ unstableOf vals = true ∨
        (5 : ℚ) ≤ rawMissingPercent c t) →
      (classifyColumn n c t).trust = "Reliable" ∧
      (classifyColumn n c t).remarks = "Column is reliable") := by
  rw [classifyColumn_scored n c t dtype vals hid hv hne]
  refine ⟨fun h1 => ?_, fun h1 h2 => ?_, fun h1 h2 h3 => ?_, fun h1 h2 h3 => ?_⟩
  · simp [trustClassify, h1]
  · simp [trustClassify, h1, h2]
  · rcases h3 with h | h | h <;> simp [trustClassify, h1, h2, h]
  · simp only [not_or] at h3
    simp [trustClassify, h1, h2, h3.1, h3.2.1, h3.2.2]

/-- Column used to witness C3: four numeric values, no missing entries,
symmetric, tight dispersion — the Reliable branch. -/
def exC3 : List (Option ℚ) := [some 1, some 1, some 2, some 2]

theorem c3_priority_witness :
    (classifyColumn "value" (.numeric exC3) 4).trust = "Reliable" ∧
    (classifyColumn "value" (.numeric exC3) 4).remarks = "Column is reliable" :=
  (c3_priority "value" (.numeric exC3) 4 "Numeric" (numericNonMissing exC3)
    (by norm_num [is_index_like, numericNonMissing, exC3, List.dedup,
      List.pwFilter, List.filterMap])
    rfl
    (by simp [numericNonMissing, exC3, List.filterMap])).2.2.2
    (by norm_num [rawMissingPercent, countMissing, exC3, List.countP,
      List.countP.go, Option.isNone])
    (by norm_num [outlierCountOf, numericNonMissing, exC3, List.filterMap,
      quantileOf, sortedVals, List.insertionSort, List.orderedInsert,
      Int.fract, List.getD, Int.toNat, List.countP, List.countP.go])
    (by
      norm_num [distortedOf, unstableOf, numericNonMissing, exC3,
        List.filterMap, m2Of, m3Of, meanOf, sampleVar, iqrOf, quantileOf,
        sortedVals, List.insertionSort, List.orderedInsert, Int.fract,
        List.getD, Int.toNat, rawMissingPercent, countMissing, List.countP,
        List.countP.go, Option.isNone])

/-- Column used for C4: no missing values and one extreme value, so the
outlier rule fires (fence degenerates to [1,1], one value strictly
outside, and 1 > 5 * 0.1). -/
def exC4 : List (Option ℚ) := [some 1, some 1, some 1, some 1, some 100]

/-- C4 counterexample: a scored column with missing_percent < 30 and
outlier_count > total_rows * 0.1 gets trust High Risk but its remark is
"Excessive outliers", not "Too many outliers" as the claim states. -/
theorem c4_counterexample :
    rawMissingPercent (.numeric exC4) 5 < 30 ∧
    (5 : ℚ) * 0.1 < (outlierCountOf (numericNonMissing exC4) : ℚ) ∧
    (classifyColumn "value" (.numeric exC4) 5).trust = "High Risk" ∧
    ¬ (classifyColumn "value" (.numeric exC4) 5).remarks = "Too many outliers" := by
  norm_num [classifyColumn, exC4, is_index_like, numericNonMissing,
    countMissing, numericValuesOf, rawMissingPercent, sortedVals, diffsOf,
    distortedOf, unstableOf, outlierCountOf, quantileOf, iqrOf, sampleVar,
    m2Of, m3Of, meanOf, trustClassify, round2, List.insertionSort,
    List.orderedInsert, List.dedup, List.pwFilter, List.countP,
    List.countP.go, List.filterMap, Option.isNone, Option.isSome, Int.fract,
    List.getD, Int.toNat]
  decide

/-- C4 amended: when a statistically scored column has
missing_percent < 30 and outlier_count > total_rows * 0.1, the emitted
record has trust "High Risk" and remarks "Excessive outliers" (the
source's literal; the claim's "Too many outliers" is not the emitted
text). -/
theorem c4_amended (n : String) (c : ColumnData) (t : ℕ) (dtype : String)
    (vals : List ℚ) (hid : is_index_like c t = false)
    (hv : numericValuesOf c = some (dtype, vals)) (hne : vals ≠ [])
    (hmp : rawMissingPercent c t < 30)
    (hoc : (t : ℚ) * 0.1 < (outlierCountOf vals : ℚ)) :
    (classifyColumn n c t).trust = "High Risk" ∧
    (classifyColumn n c t).remarks = "Excessive outliers" := by
  rw [classifyColumn_scored n c t dtype vals hid hv hne]
  simp [trustClassify, not_le.2 hmp, hoc]

theorem c4_amended_witness :
    (classifyColumn "value" (.numeric exC4) 5).trust = "High Risk" ∧
    (classifyColumn "value" (.numeric exC4) 5).remarks = "Excessive outliers" :=
  c4_amended "value" (.numeric exC4) 5 "Numeric" (numericNonMissing exC4)
    (by norm_num [is_index_like, numericNonMissing, exC4, List.dedup,
      List.pwFilter, List.filterMap])
    rfl
    (by simp [numericNonMissing, exC4, List.filterMap])
    (by norm_num [rawMissingPercent, countMissing, exC4, List.countP,
      List.countP.go, Option.isNone])
    (by norm_num [outlierCountOf, numericNonMissing, exC4, List.filterMap,
      quantileOf, sortedVals, List.insertionSort, List.orderedInsert,
      Int.fract, List.getD, Int.toNat, List.countP, List.countP.go])

/-- A list has exactly one distinct value iff it is nonempty and constant. -/
theorem dedup_length_eq_one {α : Type} [DecidableEq α] (l : List α) :
    l.dedup.length = 1 ↔ ∃ a, l ≠ [] ∧ ∀ b ∈ l, b = a := by
  constructor
  · intro h
    obtain ⟨a, ha⟩ := List.length_eq_one.1 h
    refine ⟨a, ?_, fun b hb => ?_⟩
    · intro hnil
      simp [hnil] at ha
    · have : b ∈ l.dedup := List.mem_dedup.2 hb
      rw [ha] at this
      simpa using this
  · rintro ⟨a, hne, hall⟩
    have : l.dedup = [a] := by
      induction l with
      | nil => exact absurd rfl hne
      | cons x xs ih =>
        have hx : x = a := hall x (by simp)
        rcases xs with - | ⟨y, ys⟩
        · simp [hx, List.dedup]
        · have hall' : ∀ b ∈ y :: ys, b = a := fun b hb => hall b (by simp [hb])
          have hy : y = a := hall' y (by simp)
          have hmem : x ∈ y :: ys := by
            rw [hx, hy]
            simp
          rw [List.dedup_cons_of_mem hmem]
          exact ih (by simp) hall'
    simp [this]

/-- The difference list is empty iff the list has fewer than two entries. -/
theorem diffs_eq_nil_iff : ∀ l : List ℚ, diffsOf l = [] ↔ l.length ≤ 1
  | [] => by simp [diffsOf]
  | [_] => by simp [diffsOf]
  | _ :: _ :: _ => by simp [diffsOf]

/-- All consecutive differences equal d iff the list is an arithmetic
progression of step d. -/
theorem diffs_forall_iff (d : ℚ) :
    ∀ l : List ℚ,
      (∀ y ∈ diffsOf l, y = d) ↔ l.Chain' (fun a b => b - a = d)
  | [] => by simp [diffsOf]
  | [_] => by simp [diffsOf]
  | x :: y :: rest => by
    have ih := diffs_forall_iff d (y :: rest)
    simp only [diffsOf, List.tail_cons, List.zipWith_cons_cons,
      List.mem_cons, List.chain'_cons] at *
    constructor
    · intro h
      exact ⟨h (y - x) (Or.inl rfl), ih.1 fun z hz => h z (Or.inr hz)⟩
    · rintro ⟨h1, h2⟩ z hz
      rcases hz with hz | hz
      · rw [hz, h1]
      · exact ih.2 h2 z hz

/-- is_index_like on a numeric column, characterised. -/
theorem is_index_like_numeric_iff (cells : List (Option ℚ)) (t : ℕ) :
    is_index_like (.numeric cells) t = true ↔
      (t : ℚ) * 0.9 ≤ ((numericNonMissing cells).dedup.length : ℚ) ∧
      2 ≤ (numericNonMissing cells).length ∧
      ∃ d, (sortedVals (numericNonMissing cells)).Chain'
        fun a b => b - a = d := by
  simp only [is_index_like]
  split_ifs with h
  · simp only [Bool.false_eq_true, false_iff]
    rintro ⟨hb, -⟩
    exact absurd hb (not_le.2 h)
  · rw [beq_iff_eq, dedup_length_eq_one]
    have hlen : (sortedVals (numericNonMissing cells)).length =
        (numericNonMissing cells).length :=
      List.length_insertionSort _ _
    constructor
    · rintro ⟨d, hne, hall⟩
      refine ⟨not_lt.1 h, ?_, d, (diffs_forall_iff d _).1 hall⟩
      by_contra hlt
      exact hne ((diffs_eq_nil_iff _).2 (by omega))
    · rintro ⟨-, h2, d, hchain⟩
      refine ⟨d, ?_, (diffs_forall_iff d _).2 hchain⟩
      intro hnil
      have := (diffs_eq_nil_iff _).1 hnil
      omega

/-- C5: is_index_like returns true exactly when the column is natively
numeric, its distinct non-missing count is at least 0.9 * total_rows, and
its sorted non-missing values (at least two of them) form an arithmetic
progression of some constant step; in particular it is false for every
textual column and for every column with at most one non-missing value. -/
theorem c5_identifier (column : ColumnData) (total_rows : ℕ) :
    (is_index_like column total_rows = true ↔
      ∃ cells, column = ColumnData.numeric cells ∧
        (total_rows : ℚ) * 0.9 ≤ ((numericNonMissing cells).dedup.length : ℚ) ∧
        2 ≤ (numericNonMissing cells).length ∧
        ∃ d, (sortedVals (numericNonMissing cells)).Chain'
          fun a b => b - a = d) ∧
    (∀ cells, column = ColumnData.textual cells →
      is_index_like column total_rows = false) ∧
    (∀ cells, column = ColumnData.numeric cells →
      (numericNonMissing cells).length ≤ 1 →
      is_index_like column total_rows = false) := by
  refine ⟨?_, ?_, ?_⟩
  · cases column with
    | textual cells => simp [is_index_like]
    | numeric cells =>
      rw [is_index_like_numeric_iff]
      constructor
      · intro hc
        exact ⟨cells, rfl, hc⟩
      · rintro ⟨cells', heq, hc⟩
        obtain rfl : cells' = cells := by
          injection heq with h
          exact h.symm
        exact hc
  · rintro cells rfl
    rfl
  · rintro cells rfl hlen
    rcases hb : is_index_like (ColumnData.numeric cells) total_rows with - | -
    · rfl
    · have := (is_index_like_numeric_iff cells total_rows).1 hb
      omega

/-- Column used to witness C5: the identifier column [1, 2, 3]. -/
def exC5 : List (Option ℚ) := [some 1, some 2, some 3]

theorem c5_identifier_witness :
    is_index_like (.numeric exC5) 3 = true :=
  (c5_identifier (.numeric exC5) 3).1.mpr
    ⟨exC5, rfl,
      by norm_num [numericNonMissing, exC5, List.filterMap, List.dedup,
        List.pwFilter],
      by norm_num [numericNonMissing, exC5, List.filterMap],
      1,
      by norm_num [sortedVals, numericNonMissing, exC5, List.filterMap,
        List.insertionSort, List.orderedInsert, List.chain'_cons,
        List.chain'_singleton]⟩

/-- removeChar deletes exactly the occurrences of its character. -/
theorem removeChar_eq_filter (c : Char) :
    ∀ l : List Char, removeChar c l = l.filter fun x => !(x == c)
  | [] => rfl
  | x :: xs => by
    have ih := removeChar_eq_filter c xs
    by_cases h : x = c <;> simp [removeChar, h, ih]

/-- stripSymbols keeps, in order, exactly the characters that are none of
dollar, comma, percent. -/
theorem stripSymbols_eq_filter (l : List Char) :
    stripSymbols l =
      l.filter fun ch => decide (¬ (ch = '$' ∨ ch = ',' ∨ ch = '%')) := by
  rw [stripSymbols, removeChar_eq_filter, removeChar_eq_filter,
    removeChar_eq_filter, List.filter_filter, List.filter_filter]
  refine List.filter_congr fun x _ => ?_
  by_cases h1 : x = '$' <;> by_cases h2 : x = ',' <;> by_cases h3 : x = '%' <;>
    simp [h1, h2, h3]

/-- getD through map, inside bounds, when the defaults correspond. -/
theorem getD_map_lt {α β : Type} (f : α → β) (d : α) :
    ∀ (l : List α) (i : ℕ), i < l.length →
      (l.map f).getD i (f d) = f (l.getD i d)
  | [], i, h => absurd h (by simp)
  | _ :: _, 0, _ => rfl
  | _ :: xs, i + 1, h => getD_map_lt f d xs i (by simpa using h)

/-- C6: try_convert_to_number keeps the column length, transforms each
entry by stripping every occurrence of the dollar, comma and percent
characters and then parsing, turns every parse failure (originally
missing entries included) into a missing output entry, never fails, and
its success_rate is the count of parsed entries divided by the full
column length. -/
theorem c6_coercion (cells : List (Option String)) :
    (try_convert_to_number cells).1.length = cells.length ∧
    (∀ l : List Char, stripSymbols l =
      l.filter fun ch => decide (¬ (ch = '$' ∨ ch = ',' ∨ ch = '%'))) ∧
    (∀ i, i < cells.length →
      (try_convert_to_number cells).1.getD i none =
        parseNumeric (String.mk (stripSymbols (cellStr (cells.getD i none)).data))) ∧
    (∀ i, i < cells.length → cells.getD i none = none →
      (try_convert_to_number cells).1.getD i none = none) ∧
    (try_convert_to_number cells).2 =
      ((try_convert_to_number cells).1.countP Option.isSome : ℚ) /
        (cells.length : ℚ) := by
  have hmap : ∀ i, i < cells.length →
      (try_convert_to_number cells).1.getD i none =
        convertCell (cells.getD i none) := by
    intro i hi
    have hcc : convertCell none = none := rfl
    have h2 := getD_map_lt convertCell none cells i hi
    rw [hcc] at h2
    exact h2
  refine ⟨by simp [try_convert_to_number], stripSymbols_eq_filter, ?_, ?_, rfl⟩
  · intro i hi
    rw [hmap i hi]
    rfl
  · intro i hi hnone
    rw [hmap i hi, hnone]
    rfl

/-- Textual column used to witness C6: a parsable price, a missing entry,
an unparseable word, a percentage. -/
def exC6 : List (Option String) :=
  [some "$1,234", none, some "abc", some "50%"]

theorem c6_coercion_witness :
    1 < exC6.length ∧ (try_convert_to_number exC6).1.getD 1 none = none :=
  ⟨by simp [exC6], (c6_coercion exC6).2.2.2.1 1 (by simp [exC6]) rfl⟩

/-- C7: for a scored column the unstable flag is true exactly when
iqr > 0 and std > iqr, where std is the (nonnegative real) square root of
the sample variance; when iqr = 0 the flag is false regardless of the
dispersion, with no undefined or divide-by-zero behaviour (the embedding
is total). -/
theorem c7_instability (vals : List ℚ) (s : ℝ) (h0 : 0 ≤ s)
    (hs : s ^ 2 = ((sampleVar vals : ℚ) : ℝ)) :
    (unstableOf vals = true ↔
      0 < iqrOf vals ∧ ((iqrOf vals : ℚ) : ℝ) < s) ∧
    (iqrOf vals = 0 → unstableOf vals = false) := by
  constructor
  · simp only [unstableOf, decide_eq_true_eq]
    constructor
    · rintro ⟨hpos, hlt⟩
      refine ⟨hpos, ?_⟩
      have hq : ((iqrOf vals : ℚ) : ℝ) ^ 2 < s ^ 2 := by
        rw [hs]
        exact_mod_cast hlt
      have hi : (0 : ℝ) ≤ ((iqrOf vals : ℚ) : ℝ) := by exact_mod_cast hpos.le
      nlinarith [hq, hi, h0]
    · rintro ⟨hpos, hlt⟩
      refine ⟨hpos, ?_⟩
      have hi : (0 : ℝ) ≤ ((iqrOf vals : ℚ) : ℝ) := by exact_mod_cast hpos.le
      have hq : ((iqrOf vals : ℚ) : ℝ) ^ 2 < s ^ 2 := by nlinarith [hi, hlt]
      rw [hs] at hq
      exact_mod_cast hq
  · intro h
    simp [unstableOf, h]

theorem c7_instability_witness :
    (0 : ℝ) ≤ 1 ∧
    (unstableOf [0, 1, 2] = true ↔
      0 < iqrOf [0, 1, 2] ∧ ((iqrOf [0, 1, 2] : ℚ) : ℝ) < 1) :=
  ⟨by norm_num,
   (c7_instability [0, 1, 2] 1 (by norm_num)
     (by norm_num [sampleVar, m2Of, meanOf])).1⟩

/-- Column used for the C8 counterexample: 21 rows, the values 1..10 each
twice plus a skew-inducing 30, nothing missing. -/
def exC8A : List (Option ℚ) :=
  [some 1, some 2, some 3, some 4, some 5, some 6, some 7, some 8, some 9,
   some 10, some 1, some 2, some 3, some 4, some 5, some 6, some 7, some 8,
   some 9, some 10, some 30]

/-- The same column with the 30 turned missing: one more missing entry,
otherwise identical. -/
def exC8B : List (Option ℚ) := exC8A.set 20 none

/-- C8 counterexample: turning one present entry of exC8A missing (same
total_rows, all other entries identical) moves its trust label from
Needs Cleaning down to Reliable, so trust is not monotone in missingness. -/
theorem c8_counterexample :
    exC8B = exC8A.set 20 none ∧
    exC8A.getD 20 none = some 30 ∧
    countMissing (.numeric exC8B) = countMissing (.numeric exC8A) + 1 ∧
    (classifyColumn "value" (.numeric exC8A) 21).trust = "Needs Cleaning" ∧
    (classifyColumn "value" (.numeric exC8B) 21).trust = "Reliable" ∧
    riskRank (classifyColumn "value" (.numeric exC8B) 21).trust <
      riskRank (classifyColumn "value" (.numeric exC8A) 21).trust := by
  have hA : (classifyColumn "value" (.numeric exC8A) 21).trust =
      "Needs Cleaning" := by
    norm_num [classifyColumn, exC8A, is_index_like, numericNonMissing,
      countMissing, numericValuesOf, rawMissingPercent, sortedVals, diffsOf,
      distortedOf, unstableOf, outlierCountOf, quantileOf, iqrOf, sampleVar,
      m2Of, m3Of, meanOf, trustClassify, round2, List.insertionSort,
      List.orderedInsert, List.dedup, List.pwFilter, List.countP,
      List.countP.go, List.filterMap, Option.isNone, Option.isSome,
      Int.fract, List.getD, Int.toNat]
  have hB : (classifyColumn "value" (.numeric exC8B) 21).trust =
      "Reliable" := by
    norm_num [classifyColumn, exC8A, exC8B, List.set, is_index_like,
      numericNonMissing, countMissing, numericValuesOf, rawMissingPercent,
      sortedVals, diffsOf, distortedOf, unstableOf, outlierCountOf,
      quantileOf, iqrOf, sampleVar, m2Of, m3Of, meanOf, trustClassify,
      round2, List.insertionSort, List.orderedInsert, List.dedup,
      List.pwFilter, List.countP, List.countP.go, List.filterMap,
      Option.isNone, Option.isSome, Int.fract, List.getD, Int.toNat]
  refine ⟨rfl, rfl, rfl, hA, hB, ?_⟩
  rw [hA, hB]
  decide

/-- C8 amended: the monotonicity holds of the trust decision itself — with
the outlier count and the distorted/unstable flags held fixed, a larger
missing_percent never yields a lower-risk label, in both the scored-column
chain and the categorical chain; the original claim fails because turning
entries missing also changes those sample statistics (c8_counterexample). -/
theorem c8_amended (mp mp' : ℚ) (oc t : ℕ) (d u : Bool) (h : mp ≤ mp') :
    riskRank (trustClassify mp oc t d u).1 ≤
      riskRank (trustClassify mp' oc t d u).1 ∧
    riskRank (categoricalTrust mp) ≤ riskRank (categoricalTrust mp') := by
  constructor
  · unfold trustClassify
    split_ifs <;> simp_all [riskRank] <;> linarith
  · unfold categoricalTrust
    split_ifs <;> simp_all [riskRank] <;> linarith

theorem c8_amended_witness :
    (0 : ℚ) ≤ 31 ∧
    riskRank (trustClassify 0 7 10 false false).1 ≤
      riskRank (trustClassify 31 7 10 false false).1 ∧
    riskRank (categoricalTrust 0) ≤ riskRank (categoricalTrust 31) :=
  ⟨by norm_num,
   (c8_amended 0 31 7 10 false false (by norm_num)).1,
   (c8_amended 0 31 7 10 false false (by norm_num)).2⟩

/-- Every branch of classifyColumn reports the original column's missing
count. -/
theorem classifyColumn_missing_count (n : String) (c : ColumnData) (t : ℕ) :
    (classifyColumn n c t).missing_count = countMissing c := by
  simp only [classifyColumn]
  split
  · rfl
  · split
    · rfl
    · split <;> rfl

/-- Every branch of classifyColumn reports the original column's rounded
missing percentage. -/
theorem classifyColumn_missing_percent (n : String) (c : ColumnData) (t : ℕ) :
    (classifyColumn n c t).missing_percent =
      round2 (rawMissingPercent c t) := by
  simp only [classifyColumn]
  split
  · rfl
  · split
    · rfl
    · split <;> rfl

/-- The kept entries of an optional list are counted by isSome. -/
theorem length_filterMap_id {α : Type} :
    ∀ l : List (Option α), (l.filterMap id).length = l.countP Option.isSome
  | [] => rfl
  | none :: xs => by
    simp [List.filterMap_cons, length_filterMap_id xs, List.countP_cons]
  | some _ :: xs => by
    simp [List.filterMap_cons, length_filterMap_id xs, List.countP_cons]

/-- C9: for a textual column coerced to "Numeric (converted)", the
record's missing_count and missing_percent are those of the original
column, computed before coercion; entries that fail to parse are excluded
from the statistical sample (whose size is the parsed count, not
total minus missing) without being added to missing_count, and the trust
rules are evaluated on the original column's missing percentage. -/
theorem c9_converted (n : String) (cells : List (Option String)) (t : ℕ)
    (hrate : (0.9 : ℚ) ≤ (try_convert_to_number cells).2) :
    (classifyColumn n (.textual cells) t).missing_count =
      cells.countP Option.isNone ∧
    (classifyColumn n (.textual cells) t).missing_percent =
      round2 (rawMissingPercent (.textual cells) t) ∧
    ((try_convert_to_number cells).1.filterMap id).length =
      (try_convert_to_number cells).1.countP Option.isSome ∧
    ((try_convert_to_number cells).1.filterMap id ≠ [] →
      (classifyColumn n (.textual cells) t).data_type = "Numeric (converted)" ∧
      ((classifyColumn n (.textual cells) t).trust,
        (classifyColumn n (.textual cells) t).remarks) =
        trustClassify (rawMissingPercent (.textual cells) t)
          (outlierCountOf ((try_convert_to_number cells).1.filterMap id)) t
          (distortedOf ((try_convert_to_number cells).1.filterMap id))
          (unstableOf ((try_convert_to_number cells).1.filterMap id))) := by
  have hv : numericValuesOf (.textual cells) =
      some ("Numeric (converted)", (try_convert_to_number cells).1.filterMap id) := by
    simp only [numericValuesOf]
    rw [if_pos hrate]
  refine ⟨?_, classifyColumn_missing_percent n _ t, length_filterMap_id _, ?_⟩
  · rw [classifyColumn_missing_count]
    rfl
  · intro hne
    rw [classifyColumn_scored n (.textual cells) t "Numeric (converted)"
      ((try_convert_to_number cells).1.filterMap id) rfl hv hne]
    exact ⟨rfl, rfl⟩

/-- Textual column used to witness C9: nine parsable entries, one
unparseable word, nothing missing. -/
def exC9 : List (Option String) :=
  [some "1", some "2", some "3", some "4", some "5", some "6", some "7",
   some "8", some "9", some "abc"]

theorem c9_converted_witness :
    ((try_convert_to_number exC9).1.filterMap id).length = 9 ∧
    (classifyColumn "price" (.textual exC9) 10).missing_count = 0 ∧
    (classifyColumn "price" (.textual exC9) 10).data_type =
      "Numeric (converted)" := by
  have hconv : exC9.map convertCell =
      [some 1, some 2, some 3, some 4, some 5, some 6, some 7, some 8,
       some 9, none] := by decide
  have hrate : (0.9 : ℚ) ≤ (try_convert_to_number exC9).2 := by
    simp only [try_convert_to_number]
    rw [hconv]
    norm_num [List.countP, List.countP.go, Option.isSome, exC9]
  have h := c9_converted "price" exC9 10 hrate
  refine ⟨by decide, ?_, (h.2.2.2 (by decide)).1⟩
  rw [h.1]
  decide

/-- Unfolding of classifyColumn on an identifier column. -/
theorem classifyColumn_identifier (n : String) (c : ColumnData) (t : ℕ)
    (hid : is_index_like c t = true) :
    classifyColumn n c t =
      { column := n
        data_type := "Identifier"
        missing_count := countMissing c
        missing_percent := round2 (rawMissingPercent c t)
        distorted := false
        unstable := false
        outlier_count := 0
        trust := "Ignored"
        remarks := "Identifier column" } := by
  simp only [classifyColumn, hid, if_true]

/-- Unfolding of classifyColumn on a numeric column whose values are all
missing. -/
theorem classifyColumn_empty_numeric (n : String) (cells : List (Option ℚ))
    (t : ℕ) (hid : is_index_like (.numeric cells) t = false)
    (hnil : numericNonMissing cells = []) :
    classifyColumn n (.numeric cells) t =
      { column := n
        data_type := "Numeric"
        missing_count := countMissing (.numeric cells)
        missing_percent := round2 (rawMissingPercent (.numeric cells) t)
        distorted := false
        unstable := false
        outlier_count := 0
        trust := "High Risk"
        remarks := "All values missing" } := by
  simp only [classifyColumn, hid, Bool.false_eq_true, if_false,
    numericValuesOf]
  simp [hnil]

/-- Both quantiles of a one-element list are its value. -/
theorem quantileOf_singleton (q x : ℚ) : quantileOf q [x] = x := by
  norm_num [quantileOf, sortedVals, List.insertionSort, List.orderedInsert,
    List.getD]

/-- A one-element list has zero interquartile range. -/
theorem iqrOf_singleton (x : ℚ) : iqrOf [x] = 0 := by
  simp [iqrOf, quantileOf_singleton]

/-- C10: for a numeric column with fewer than three non-missing values the
skewness estimator is out of domain and the distorted flag is false (the
embedding's guard mirrors pandas' NaN comparing false against 0.5); with
exactly one non-missing value the unstable flag is false as well; and in
all these cases classification still emits one complete record (a
nonempty trust label). -/
theorem c10_degenerate (n : String) (cells : List (Option ℚ)) (t : ℕ)
    (hn : (numericNonMissing cells).length < 3) :
    distortedOf (numericNonMissing cells) = false ∧
    (classifyColumn n (.numeric cells) t).distorted = false ∧
    ((numericNonMissing cells).length = 1 →
      unstableOf (numericNonMissing cells) = false ∧
      (classifyColumn n (.numeric cells) t).unstable = false) ∧
    (classifyColumn n (.numeric cells) t).trust ≠ "" := by
  have hd : distortedOf (numericNonMissing cells) = false := by
    rw [distortedOf, decide_eq_false_iff_not]
    rintro ⟨h3, -⟩
    omega
  have hu1 : (numericNonMissing cells).length = 1 →
      unstableOf (numericNonMissing cells) = false := by
    intro h1
    obtain ⟨x, hx⟩ := List.length_eq_one.1 h1
    rw [hx]
    simp [unstableOf, iqrOf_singleton]
  rcases hb : is_index_like (.numeric cells) t with - | -
  · by_cases hnil : numericNonMissing cells = []
    · rw [classifyColumn_empty_numeric n cells t hb hnil]
      exact ⟨hd, rfl, fun h1 => ⟨hu1 h1, rfl⟩, by simp⟩
    · rw [classifyColumn_scored n (.numeric cells) t "Numeric"
        (numericNonMissing cells) hb rfl hnil]
      refine ⟨hd, hd, fun h1 => ⟨hu1 h1, hu1 h1⟩, ?_⟩
      rcases trustClassify_fst_cases (rawMissingPercent (.numeric cells) t)
        (outlierCountOf (numericNonMissing cells)) t
        (distortedOf (numericNonMissing cells))
        (unstableOf (numericNonMissing cells)) with h | h | h <;>
        simp [h]
  · rw [classifyColumn_identifier n _ t hb]
    exact ⟨hd, rfl, fun h1 => ⟨hu1 h1, rfl⟩, by simp⟩

/-- Column used to witness C10: one value present, one missing. -/
def exC10 : List (Option ℚ) := [some 5, none]

theorem c10_degenerate_witness :
    distortedOf (numericNonMissing exC10) = false ∧
    unstableOf (numericNonMissing exC10) = false ∧
    (classifyColumn "tiny" (.numeric exC10) 2).trust ≠ "" := by
  have h := c10_degenerate "tiny" exC10 2
    (by simp [numericNonMissing, exC10, List.filterMap])
  exact ⟨h.1,
    (h.2.2.1 (by simp [numericNonMissing, exC10, List.filterMap])).1,
    h.2.2.2⟩

end DataTrust
